import Mathlib

/-!
Shallow embedding of `app/main.py` (OSS Note 2217124 credit-management
assessment service): request-body JSON values, pydantic-style validation of
`SelectItem` / `NoteContext` (including the `no_none` before-validator, which
iterates the raw value with Python semantics and filters falsy entries), the
pure summarizer `summarize_context`, and the request handler
`assess_note_context`, parameterized over an abstract model-invocation
function and instrumented with an outbound-call counter.
-/

/-- A JSON value, as decoded from a request body or a model reply. -/
inductive Json where
  | null : Json
  | bool (b : Bool) : Json
  | num (n : Int) : Json
  | str (s : String) : Json
  | arr (items : List Json) : Json
  | obj (fields : List (String × Json)) : Json

/-- First-match association lookup on the fields of a JSON object
(request bodies and model replies are assumed to have distinct keys,
as Python's `json` module would deduplicate them anyway). -/
def jlookup (kvs : List (String × Json)) (k : String) : Option Json :=
  match kvs with
  | [] => none
  | (k', v) :: rest => if k' = k then some v else jlookup rest k

/-- Key lookup on a JSON value: `some` only for object values. -/
def jget (j : Json) (k : String) : Option Json :=
  match j with
  | Json.obj kvs => jlookup kvs k
  | _ => none

/-- Outcome of pydantic validation of one value: success, a collected
`ValidationError` (surfaced by FastAPI as HTTP 422), or an exception raised
inside a validator that pydantic v2 does not convert (`TypeError`, surfaced
as an uncaught server error). pydantic collects `invalid` outcomes and keeps
traversing, but aborts at the first raised `TypeError`, so `typeErr`
dominates `invalid` in either order. -/
inductive V (α : Type) where
  | ok (a : α) : V α
  | invalid : V α
  | typeErr : V α
deriving DecidableEq

/-- Map over a successful validation outcome. -/
def V.map {α β : Type} (f : α → β) : V α → V β
  | V.ok a => V.ok (f a)
  | V.invalid => V.invalid
  | V.typeErr => V.typeErr

/-- Combine two field validations: both must succeed; a raised `TypeError`
anywhere dominates collected validation errors (pydantic keeps validating
later fields after recording an error, so a later `TypeError` still
propagates). -/
def V.and2 {α β : Type} : V α → V β → V (α × β)
  | V.ok a, V.ok b => V.ok (a, b)
  | V.typeErr, _ => V.typeErr
  | _, V.typeErr => V.typeErr
  | _, _ => V.invalid

/-- Python truthiness of a decoded JSON value, as tested by `if x` in the
`no_none` validator's list comprehension. -/
def pyTruthy : Json → Bool
  | Json.null => false
  | Json.bool b => b
  | Json.num n => n != 0
  | Json.str s => s != ""
  | Json.arr items => !items.isEmpty
  | Json.obj fields => !fields.isEmpty

/-- Python iteration (`for x in v`) over a decoded JSON value: lists yield
their elements, strings yield their characters as one-character strings,
dicts yield their keys; numbers, booleans and `None` are not iterable and
raise `TypeError` (`none` here). -/
def pyIterate : Json → Option (List Json)
  | Json.arr items => some items
  | Json.str s => some (s.toList.map (fun c => Json.str (String.singleton c)))
  | Json.obj fields => some (fields.map (fun kv => Json.str kv.1))
  | _ => none

/-- The `SelectItem.no_none` before-validator: `[x for x in v if x]` on the
raw field value. Iterating a non-iterable raw value raises `TypeError`,
which pydantic v2 does not convert into a validation error. -/
def no_none (v : Json) : V (List Json) :=
  match pyIterate v with
  | none => V.typeErr
  | some xs => V.ok (xs.filter pyTruthy)

/-- pydantic validation of `List[str]` applied after the before-validator:
every element must already be a string (no coercion from numbers or
booleans). -/
def strList : List Json → V (List String)
  | [] => V.ok []
  | x :: xs =>
    match x with
    | Json.str s => (strList xs).map (fun l => s :: l)
    | _ => V.invalid

/-- A required `str` field: present and a JSON string, otherwise a collected
validation error (missing field or wrong type never raises). -/
def reqStr (kvs : List (String × Json)) (k : String) : V String :=
  match jlookup kvs k with
  | some (Json.str s) => V.ok s
  | _ => V.invalid

/-- An `Optional[str] = None` field: absent or `null` becomes `none`, a
string is kept, anything else is a collected validation error. -/
def optStr (kvs : List (String × Json)) (k : String) : V (Option String) :=
  match jlookup kvs k with
  | none => V.ok none
  | some Json.null => V.ok none
  | some (Json.str s) => V.ok (some s)
  | some _ => V.invalid

/-- A required `List[str]` field guarded by the `no_none` before-validator:
if the field is missing the validator never runs (collected missing-field
error); otherwise the raw value is iterated and filtered, then checked to
be a list of strings. -/
def fieldsList (kvs : List (String × Json)) (k : String) : V (List String) :=
  match jlookup kvs k with
  | none => V.invalid
  | some v =>
    match no_none v with
    | V.ok xs => strList xs
    | V.invalid => V.invalid
    | V.typeErr => V.typeErr

/-- One validated credit-management object usage (`class SelectItem`). -/
structure SelectItem where
  table : String
  target_type : String
  target_name : String
  used_fields : List String
  suggested_fields : List String
  suggested_statement : Option String
deriving DecidableEq

/-- One validated unit context (`class NoteContext`). -/
structure NoteContext where
  pgm_name : Option String
  inc_name : Option String
  type : Option String
  name : Option String
  cm_obj_usage : List SelectItem
deriving DecidableEq

/-- Validate a list of values element by element, in order: pydantic records
per-element validation errors and keeps going, but a raised `TypeError` at
any element aborts the whole validation. -/
def vList {α : Type} (f : Json → V α) : List Json → V (List α)
  | [] => V.ok []
  | x :: xs => (V.and2 (f x) (vList f xs)).map (fun p => p.1 :: p.2)

/-- Validate one `SelectItem` record: the input must be a JSON object with
required string fields `table`, `target_type`, `target_name`, filtered
string-list fields `used_fields`, `suggested_fields`, and optional
`suggested_statement`. -/
def validateSelectItem (j : Json) : V SelectItem :=
  match j with
  | Json.obj kvs =>
    (V.and2 (reqStr kvs "table")
    (V.and2 (reqStr kvs "target_type")
    (V.and2 (reqStr kvs "target_name")
    (V.and2 (fieldsList kvs "used_fields")
    (V.and2 (fieldsList kvs "suggested_fields")
            (optStr kvs "suggested_statement")))))).map
      (fun p =>
        match p with
        | (t, tt, tn, uf, sf, ss) =>
          { table := t, target_type := tt, target_name := tn,
            used_fields := uf, suggested_fields := sf,
            suggested_statement := ss })
  | _ => V.invalid

/-- The `cm_obj_usage` field of a raw record: `default_factory=list` makes
an absent field the empty list; a present field must be a JSON array of
valid `SelectItem` records (`null` or any non-array is a validation
error). -/
def usagesField (kvs : List (String × Json)) : V (List SelectItem) :=
  match jlookup kvs "cm_obj_usage" with
  | none => V.ok []
  | some (Json.arr items) => vList validateSelectItem items
  | some _ => V.invalid

/-- Validate one `NoteContext` record: four optional string fields and
`cm_obj_usage`, which defaults to the empty list when absent and must
otherwise be a JSON array of valid `SelectItem` records. -/
def validateNoteContext (j : Json) : V NoteContext :=
  match j with
  | Json.obj kvs =>
    (V.and2 (optStr kvs "pgm_name")
    (V.and2 (optStr kvs "inc_name")
    (V.and2 (optStr kvs "type")
    (V.and2 (optStr kvs "name")
            (usagesField kvs))))).map
      (fun p =>
        match p with
        | (pn, inc, ty, nm, us) =>
          { pgm_name := pn, inc_name := inc, type := ty, name := nm,
            cm_obj_usage := us })
  | _ => V.invalid

/-- Validate a whole request body: a JSON array of `NoteContext` records
(FastAPI validates `ctxs: List[NoteContext]` before the handler runs). -/
def validateBody (j : Json) : V (List NoteContext) :=
  match j with
  | Json.arr items => vList validateNoteContext items
  | _ => V.invalid

/-- JSON encoding of an optional string (`None` becomes `null`). -/
def jsonOfOptStr : Option String → Json
  | none => Json.null
  | some s => Json.str s

/-- `SelectItem.model_dump()`: the plain mapping for one usage. -/
def model_dump (it : SelectItem) : Json :=
  Json.obj
    [("table", Json.str it.table),
     ("target_type", Json.str it.target_type),
     ("target_name", Json.str it.target_name),
     ("used_fields", Json.arr (it.used_fields.map Json.str)),
     ("suggested_fields", Json.arr (it.suggested_fields.map Json.str)),
     ("suggested_statement", jsonOfOptStr it.suggested_statement)]

/-- `summarize_context`: the pure summarizer, one plain mapping per context
with one dumped mapping per usage. -/
def summarize_context (ctx : NoteContext) : Json :=
  Json.obj
    [("unit_program", jsonOfOptStr ctx.pgm_name),
     ("unit_include", jsonOfOptStr ctx.inc_name),
     ("unit_type", jsonOfOptStr ctx.type),
     ("unit_name", jsonOfOptStr ctx.name),
     ("cm_obj_usage", Json.arr (ctx.cm_obj_usage.map model_dump))]

/-- The input handed to `chain.invoke` by `llm_assess`: the summarized
context plus the four echoed metadata fields. -/
structure LlmInput where
  context_json : Json
  pgm_name : Option String
  inc_name : Option String
  type : Option String
  name : Option String

/-- `llm_assess`: summarize the context and perform one outbound model call.
The external chain (prompt | llm | JsonOutputParser) is abstracted as
`invoke`; `Except.error e` models any exception raised during the call
(transport failure, non-JSON reply rejected by the output parser, ...),
`Except.ok r` a reply successfully parsed as the JSON value `r`. -/
def llm_assess (invoke : LlmInput → Except String Json) (ctx : NoteContext) :
    Except String Json :=
  invoke
    { context_json := summarize_context ctx, pgm_name := ctx.pgm_name,
      inc_name := ctx.inc_name, type := ctx.type, name := ctx.name }

/-- An exception escaping the handler body: an `HTTPException` raised with a
status and detail, or an untranslated Python exception (`AttributeError`
from calling `.get` on a non-dict model reply). -/
inductive HandlerExc where
  | httpExc (status : Nat) (detail : String) : HandlerExc
  | pyExc (msg : String) : HandlerExc
deriving DecidableEq

/-- One response item: echoed metadata, the reserved empty `code` field, and
the model reply's `assessment` / `llm_prompt` values, defaulting to the
empty string when the key is absent (`llm_result.get(key, "")`). -/
def buildResult (ctx : NoteContext) (kvs : List (String × Json)) : Json :=
  Json.obj
    [("pgm_name", jsonOfOptStr ctx.pgm_name),
     ("inc_name", jsonOfOptStr ctx.inc_name),
     ("type", jsonOfOptStr ctx.type),
     ("name", jsonOfOptStr ctx.name),
     ("code", Json.str ""),
     ("assessment", (jlookup kvs "assessment").getD (Json.str "")),
     ("llm_prompt", (jlookup kvs "llm_prompt").getD (Json.str ""))]

/-- The `POST /assess-2217124` handler body on already-validated contexts,
instrumented with the number of outbound model calls performed. Items are
processed strictly in order; a failing call raises `HTTPException(502, ...)`
immediately, discarding earlier results; a reply that is not a JSON object
raises `AttributeError` from `llm_result.get`, outside the `try` block, so
it escapes untranslated. -/
def assess_note_context (invoke : LlmInput → Except String Json) :
    List NoteContext → Except HandlerExc (List Json) × Nat
  | [] => (Except.ok [], 0)
  | ctx :: rest =>
    match llm_assess invoke ctx with
    | Except.error e =>
      (Except.error (HandlerExc.httpExc 502 ("LLM call failed: " ++ e)), 1)
    | Except.ok r =>
      match r with
      | Json.obj kvs =>
        let tail := assess_note_context invoke rest
        ((tail.1).map (fun rs => buildResult ctx kvs :: rs), tail.2 + 1)
      | _ =>
        (Except.error (HandlerExc.pyExc "AttributeError: no attribute get"), 1)

/-- An HTTP response of the service: a 200 with a JSON body, the 422 of
FastAPI schema validation, an `HTTPException`-carried status and detail, or
a 500 from an exception nobody translated. -/
inductive Resp where
  | ok (body : Json) : Resp
  | validationError : Resp
  | httpError (status : Nat) (detail : String) : Resp
  | uncaught (msg : String) : Resp

/-- Full processing of one `POST /assess-2217124` request: FastAPI validates
the body (422 on a collected validation error, an uncaught `TypeError` from
the before-validator escapes as a server error, both before any model
call), then the handler body runs; its result or exception is translated to
a response. The second component counts outbound model calls. -/
def handleRequest (invoke : LlmInput → Except String Json) (body : Json) :
    Resp × Nat :=
  match validateBody body with
  | V.typeErr => (Resp.uncaught "TypeError: argument is not iterable", 0)
  | V.invalid => (Resp.validationError, 0)
  | V.ok ctxs =>
    match assess_note_context invoke ctxs with
    | (Except.ok results, n) => (Resp.ok (Json.arr results), n)
    | (Except.error (HandlerExc.httpExc s d), n) => (Resp.httpError s d, n)
    | (Except.error (HandlerExc.pyExc m), n) => (Resp.uncaught m, n)

/-- The `GET /health` handler body: a constant object built from the
configured model identifier. -/
def health (model : String) : Json :=
  Json.obj [("ok", Json.bool true), ("model", Json.str model)]

/-- An inbound request to the service. -/
inductive Request where
  | postAssess (body : Json) : Request
  | getHealth : Request

/-- Route dispatch: the assessment endpoint runs the full request pipeline;
the health endpoint returns its constant object and performs no model call
(its body contains no call site). -/
def dispatch (invoke : LlmInput → Except String Json) (model : String) :
    Request → Resp × Nat
  | Request.postAssess body => handleRequest invoke body
  | Request.getHealth => (Resp.ok (health model), 0)

/-- The service holds no state across requests: a sequence of requests is
answered pointwise. -/
def runRequests (invoke : LlmInput → Except String Json) (model : String)
    (reqs : List Request) : List (Resp × Nat) :=
  reqs.map (dispatch invoke model)

/-- The ObjectUsage of the spec's worked example: `used_fields` is
`["KUNNR", "", null]` before validation. -/
def exampleUsageJson : Json :=
  Json.obj
    [("table", Json.str "S066"),
     ("target_type", Json.str "TABLE"),
     ("target_name", Json.str "S066"),
     ("used_fields", Json.arr [Json.str "KUNNR", Json.str "", Json.null]),
     ("suggested_fields", Json.arr [Json.str "UKM_ITEM"])]

/-- The validated form of `exampleUsageJson`. -/
def exampleUsageItem : SelectItem :=
  { table := "S066", target_type := "TABLE", target_name := "S066",
    used_fields := ["KUNNR"], suggested_fields := ["UKM_ITEM"],
    suggested_statement := none }

/-- A usage record whose `used_fields` has the wrong type: a JSON string
where a sequence of strings is required. -/
def wrongTypeUsageJson : Json :=
  Json.obj
    [("table", Json.str "T"),
     ("target_type", Json.str "TT"),
     ("target_name", Json.str "TN"),
     ("used_fields", Json.str "KUNNR"),
     ("suggested_fields", Json.arr [])]

/-- A request body containing one record with the wrong-typed usage. -/
def wrongTypeBody : Json :=
  Json.arr [Json.obj [("cm_obj_usage", Json.arr [wrongTypeUsageJson])]]

/-- What `wrongTypeBody` validates to: the string was iterated by the
before-validator, so `used_fields` becomes its characters. -/
def wrongTypeAccepted : NoteContext :=
  { pgm_name := none, inc_name := none, type := none, name := none,
    cm_obj_usage :=
      [{ table := "T", target_type := "TT", target_name := "TN",
         used_fields := ["K", "U", "N", "N", "R"], suggested_fields := [],
         suggested_statement := none }] }

/-- A usage record omitting the required `table` field. -/
def missingTableUsageJson : Json :=
  Json.obj
    [("target_type", Json.str "TT"),
     ("target_name", Json.str "TN"),
     ("used_fields", Json.arr []),
     ("suggested_fields", Json.arr [])]

/-- A request body whose only flaw is one usage missing `table`. -/
def missingTableBody : Json :=
  Json.arr [Json.obj [("cm_obj_usage", Json.arr [missingTableUsageJson])]]

/-- A usage record whose `used_fields` is a non-iterable JSON number. -/
def nonIterableUsageJson : Json :=
  Json.obj
    [("table", Json.str "T"),
     ("target_type", Json.str "TT"),
     ("target_name", Json.str "TN"),
     ("used_fields", Json.num 5),
     ("suggested_fields", Json.arr [])]

/-- A request body with a record missing `table` followed by a record whose
`used_fields` is non-iterable: pydantic collects the missing-field error,
keeps validating, and then raises `TypeError`. -/
def poisonBody : Json :=
  Json.arr
    [Json.obj [("cm_obj_usage", Json.arr [missingTableUsageJson])],
     Json.obj [("cm_obj_usage", Json.arr [nonIterableUsageJson])]]

/-- Does a raw usage record omit one of the five required fields? -/
def usageMissingRequired (u : Json) : Bool :=
  match u with
  | Json.obj kvs =>
    (jlookup kvs "table").isNone || (jlookup kvs "target_type").isNone ||
    (jlookup kvs "target_name").isNone || (jlookup kvs "used_fields").isNone ||
    (jlookup kvs "suggested_fields").isNone
  | _ => false

/-- Does a raw record carry a usage that omits a required field? -/
def recordHasUsageMissingRequired (r : Json) : Bool :=
  match r with
  | Json.obj kvs =>
    match jlookup kvs "cm_obj_usage" with
    | some (Json.arr us) => us.any usageMissingRequired
    | _ => false
  | _ => false

/-- Does a raw request body contain a record with a usage that omits a
required field? -/
def bodyHasUsageMissingRequired (b : Json) : Bool :=
  match b with
  | Json.arr items => items.any recordHasUsageMissingRequired
  | _ => false

/-- A model stand-in that is never reached. -/
def noInvoke : LlmInput → Except String Json :=
  fun _ => Except.error "unreachable"

/-- A fixed model reply carrying both expected keys. -/
def okKvs : List (String × Json) :=
  [("assessment", Json.str "a"), ("llm_prompt", Json.str "p")]

/-- A model stand-in that always succeeds with a fixed JSON object. -/
def okInvoke : LlmInput → Except String Json :=
  fun _ => Except.ok (Json.obj okKvs)

/-- A model stand-in that always succeeds with an empty JSON object. -/
def emptyObjInvoke : LlmInput → Except String Json :=
  fun _ => Except.ok (Json.obj [])

/-- A model stand-in that succeeds (with an empty JSON object) exactly on
the unit whose program name is `"A"` and fails otherwise. -/
def selInvoke : LlmInput → Except String Json :=
  fun inp =>
    if inp.pgm_name = some "A" then Except.ok (Json.obj [])
    else Except.error "boom"

/-- A model stand-in that replies with a JSON array (valid JSON, not an
object) on every unit except the one named `"A"`. -/
def arrInvoke : LlmInput → Except String Json :=
  fun inp =>
    if inp.pgm_name = some "A" then Except.ok (Json.obj [])
    else Except.ok (Json.arr [Json.str "x"])

/-- A validated context whose program name is `"A"` and that has no usages. -/
def ctxA : NoteContext :=
  { pgm_name := some "A", inc_name := none, type := none, name := none,
    cm_obj_usage := [] }

/-- A validated context whose program name is `"B"`. -/
def ctxB : NoteContext :=
  { pgm_name := some "B", inc_name := none, type := none, name := none,
    cm_obj_usage := [exampleUsageItem] }

/-- A validated context whose program name is `"C"`. -/
def ctxC : NoteContext :=
  { pgm_name := some "C", inc_name := none, type := none, name := none,
    cm_obj_usage := [] }

/-- Inverting a successful `V.map`. -/
theorem V.map_eq_ok_iff {α β : Type} {f : α → β} {v : V α} {b : β} :
    V.map f v = V.ok b ↔ ∃ a, v = V.ok a ∧ f a = b := by
  cases v <;> simp [V.map]

/-- Inverting a successful `V.and2`. -/
theorem V.and2_eq_ok_iff {α β : Type} {a : V α} {b : V β} {p : α × β} :
    V.and2 a b = V.ok p ↔ a = V.ok p.1 ∧ b = V.ok p.2 := by
  cases a <;> cases b <;>
    simp [V.and2, Prod.ext_iff, eq_comm]

/-- A successfully validated list has every raw element successfully
validated. -/
theorem vList_ok_mem {α : Type} {f : Json → V α} :
    ∀ {xs : List Json} {ys : List α}, vList f xs = V.ok ys →
      ∀ x ∈ xs, ∃ y, f x = V.ok y := by
  intro xs
  induction xs with
  | nil => simp
  | cons a xs ih =>
    intro ys h x hx
    rw [vList] at h
    rcases V.map_eq_ok_iff.mp h with ⟨p, hp, _⟩
    rcases V.and2_eq_ok_iff.mp hp with ⟨h1, h2⟩
    rcases List.mem_cons.mp hx with rfl | hx'
    · exact ⟨p.1, h1⟩
    · exact ih h2 x hx'

/-- Every string accepted by `strList` was a string element of the raw
list. -/
theorem strList_ok_mem :
    ∀ {xs : List Json} {ss : List String}, strList xs = V.ok ss →
      ∀ s ∈ ss, Json.str s ∈ xs := by
  intro xs
  induction xs with
  | nil =>
    intro ss h s hs
    rw [strList] at h
    cases h
    simp at hs
  | cons a xs ih =>
    intro ss h s hs
    cases a with
    | str s0 =>
      simp only [strList] at h
      rcases V.map_eq_ok_iff.mp h with ⟨l, hl, hcons⟩
      subst hcons
      rcases List.mem_cons.mp hs with rfl | hs'
      · exact List.mem_cons_self _ _
      · exact List.mem_cons_of_mem _ (ih hl s hs')
    | null => simp only [strList] at h; cases h
    | bool b => simp only [strList] at h; cases h
    | num n => simp only [strList] at h; cases h
    | arr items => simp only [strList] at h; cases h
    | obj fields => simp only [strList] at h; cases h

/-- A `used_fields` / `suggested_fields` value accepted by validation
contains no empty string (everything falsy was filtered out before the
string check). -/
theorem fieldsList_ok_ne_empty {kvs : List (String × Json)} {k : String}
    {l : List String} (h : fieldsList kvs k = V.ok l) :
    ∀ s ∈ l, s ≠ "" := by
  intro s hs
  unfold fieldsList at h
  split at h
  · cases h
  · split at h
    case _ xs hn =>
      unfold no_none at hn
      split at hn
      · cases hn
      · cases hn
        have hmem := strList_ok_mem h s hs
        have := (List.mem_filter.mp hmem).2
        simpa [pyTruthy] using this
    · cases h
    · cases h

/-- A successful required-string field was present in the raw record. -/
theorem reqStr_ok_isSome {kvs : List (String × Json)} {k : String}
    {s : String} (h : reqStr kvs k = V.ok s) : (jlookup kvs k).isSome := by
  unfold reqStr at h
  cases hj : jlookup kvs k with
  | none => rw [hj] at h; cases h
  | some v => simp

/-- A successful filtered-list field was present in the raw record. -/
theorem fieldsList_ok_isSome {kvs : List (String × Json)} {k : String}
    {l : List String} (h : fieldsList kvs k = V.ok l) :
    (jlookup kvs k).isSome := by
  unfold fieldsList at h
  cases hj : jlookup kvs k with
  | none => rw [hj] at h; cases h
  | some v => simp

/-- Inverting a successful `SelectItem` validation into its six field
validations. -/
theorem validateSelectItem_obj_ok {kvs : List (String × Json)}
    {it : SelectItem} (h : validateSelectItem (Json.obj kvs) = V.ok it) :
    reqStr kvs "table" = V.ok it.table ∧
    reqStr kvs "target_type" = V.ok it.target_type ∧
    reqStr kvs "target_name" = V.ok it.target_name ∧
    fieldsList kvs "used_fields" = V.ok it.used_fields ∧
    fieldsList kvs "suggested_fields" = V.ok it.suggested_fields ∧
    optStr kvs "suggested_statement" = V.ok it.suggested_statement := by
  unfold validateSelectItem at h
  rcases V.map_eq_ok_iff.mp h with ⟨p, hp, hbuild⟩
  obtain ⟨t, tt, tn, uf, sf, ss⟩ := p
  rcases V.and2_eq_ok_iff.mp hp with ⟨h1, hp2⟩
  rcases V.and2_eq_ok_iff.mp hp2 with ⟨h2, hp3⟩
  rcases V.and2_eq_ok_iff.mp hp3 with ⟨h3, hp4⟩
  rcases V.and2_eq_ok_iff.mp hp4 with ⟨h4, hp5⟩
  rcases V.and2_eq_ok_iff.mp hp5 with ⟨h5, h6⟩
  subst hbuild
  exact ⟨h1, h2, h3, h4, h5, h6⟩

/-- Inverting a successful `NoteContext` validation into its five field
validations. -/
theorem validateNoteContext_obj_ok {kvs : List (String × Json)}
    {ctx : NoteContext} (h : validateNoteContext (Json.obj kvs) = V.ok ctx) :
    optStr kvs "pgm_name" = V.ok ctx.pgm_name ∧
    optStr kvs "inc_name" = V.ok ctx.inc_name ∧
    optStr kvs "type" = V.ok ctx.type ∧
    optStr kvs "name" = V.ok ctx.name ∧
    usagesField kvs = V.ok ctx.cm_obj_usage := by
  unfold validateNoteContext at h
  rcases V.map_eq_ok_iff.mp h with ⟨p, hp, hbuild⟩
  obtain ⟨pn, inc, ty, nm, us⟩ := p
  rcases V.and2_eq_ok_iff.mp hp with ⟨h1, hp2⟩
  rcases V.and2_eq_ok_iff.mp hp2 with ⟨h2, hp3⟩
  rcases V.and2_eq_ok_iff.mp hp3 with ⟨h3, hp4⟩
  rcases V.and2_eq_ok_iff.mp hp4 with ⟨h4, h5⟩
  subst hbuild
  exact ⟨h1, h2, h3, h4, h5⟩

/-- A raw usage record that omits one of the five required fields is never
accepted by `SelectItem` validation. -/
theorem validateSelectItem_missing_not_ok {u : Json}
    (h : usageMissingRequired u = true) :
    ∀ it : SelectItem, validateSelectItem u ≠ V.ok it := by
  intro it hok
  cases u with
  | obj ukvs =>
    rcases validateSelectItem_obj_ok hok with ⟨h1, h2, h3, h4, h5, _⟩
    simp only [usageMissingRequired, Bool.or_eq_true,
      Option.isNone_iff_eq_none] at h
    rcases h with ((((hnone | hnone) | hnone) | hnone) | hnone)
    · have := reqStr_ok_isSome h1
      rw [hnone] at this
      cases this
    · have := reqStr_ok_isSome h2
      rw [hnone] at this
      cases this
    · have := reqStr_ok_isSome h3
      rw [hnone] at this
      cases this
    · have := fieldsList_ok_isSome h4
      rw [hnone] at this
      cases this
    · have := fieldsList_ok_isSome h5
      rw [hnone] at this
      cases this
  | null => cases h
  | bool b => cases h
  | num n => cases h
  | str s => cases h
  | arr items => cases h

/-- A raw record carrying a usage that omits a required field is never
accepted by `NoteContext` validation. -/
theorem validateNoteContext_missing_not_ok {r : Json}
    (h : recordHasUsageMissingRequired r = true) :
    ∀ ctx : NoteContext, validateNoteContext r ≠ V.ok ctx := by
  intro ctx hok
  cases r with
  | obj kvs =>
    simp only [recordHasUsageMissingRequired] at h
    rcases validateNoteContext_obj_ok hok with ⟨_, _, _, _, hus⟩
    cases hj : jlookup kvs "cm_obj_usage" with
    | none => simp [hj] at h
    | some v =>
      cases v with
      | arr us =>
        simp only [hj] at h
        simp only [usagesField, hj] at hus
        rcases List.any_eq_true.mp h with ⟨u, hu, hbad⟩
        rcases vList_ok_mem hus u hu with ⟨y, hy⟩
        exact validateSelectItem_missing_not_ok hbad y hy
      | null => simp [hj] at h
      | bool b => simp [hj] at h
      | num n => simp [hj] at h
      | str s => simp [hj] at h
      | obj fields => simp [hj] at h
  | null => simp [recordHasUsageMissingRequired] at h
  | bool b => simp [recordHasUsageMissingRequired] at h
  | num n => simp [recordHasUsageMissingRequired] at h
  | str s => simp [recordHasUsageMissingRequired] at h
  | arr items => simp [recordHasUsageMissingRequired] at h

/-- A request body containing a record with a usage that omits a required
field is never accepted by body validation. -/
theorem validateBody_missing_not_ok {b : Json}
    (h : bodyHasUsageMissingRequired b = true) :
    ∀ ctxs : List NoteContext, validateBody b ≠ V.ok ctxs := by
  intro ctxs hok
  cases b with
  | arr items =>
    simp only [bodyHasUsageMissingRequired] at h
    rcases List.any_eq_true.mp h with ⟨r, hr, hbad⟩
    simp only [validateBody] at hok
    rcases vList_ok_mem hok r hr with ⟨ctx, hctx⟩
    exact validateNoteContext_missing_not_ok hbad ctx hctx
  | null => simp [bodyHasUsageMissingRequired] at h
  | bool b => simp [bodyHasUsageMissingRequired] at h
  | num n => simp [bodyHasUsageMissingRequired] at h
  | str s => simp [bodyHasUsageMissingRequired] at h
  | obj fields => simp [bodyHasUsageMissingRequired] at h

/-- Filtering by Python truthiness is idempotent on lists. -/
theorem filter_pyTruthy_idem (l : List Json) :
    (l.filter pyTruthy).filter pyTruthy = l.filter pyTruthy := by
  induction l with
  | nil => rfl
  | cons a l ih =>
    by_cases hp : pyTruthy a
    · simp [List.filter_cons, hp, ih]
    · simp [List.filter_cons, hp, ih]

/-- The `code` field of a built result is always the empty string. -/
theorem jget_buildResult_code (ctx : NoteContext)
    (kvs : List (String × Json)) :
    jget (buildResult ctx kvs) "code" = some (Json.str "") := by
  simp [buildResult, jget, jlookup]

/-- A built result echoes the item's `pgm_name`. -/
theorem jget_buildResult_pgm (ctx : NoteContext)
    (kvs : List (String × Json)) :
    jget (buildResult ctx kvs) "pgm_name" =
      some (jsonOfOptStr ctx.pgm_name) := by
  simp [buildResult, jget, jlookup]

/-- A built result echoes the item's `inc_name`. -/
theorem jget_buildResult_inc (ctx : NoteContext)
    (kvs : List (String × Json)) :
    jget (buildResult ctx kvs) "inc_name" =
      some (jsonOfOptStr ctx.inc_name) := by
  simp [buildResult, jget, jlookup]

/-- A built result echoes the item's `type`. -/
theorem jget_buildResult_type (ctx : NoteContext)
    (kvs : List (String × Json)) :
    jget (buildResult ctx kvs) "type" = some (jsonOfOptStr ctx.type) := by
  simp [buildResult, jget, jlookup]

/-- A built result echoes the item's `name`. -/
theorem jget_buildResult_name (ctx : NoteContext)
    (kvs : List (String × Json)) :
    jget (buildResult ctx kvs) "name" = some (jsonOfOptStr ctx.name) := by
  simp [buildResult, jget, jlookup]

/-- A built result's `assessment` is the model reply's value, or the empty
string when the key is absent. -/
theorem jget_buildResult_assessment (ctx : NoteContext)
    (kvs : List (String × Json)) :
    jget (buildResult ctx kvs) "assessment" =
      some ((jlookup kvs "assessment").getD (Json.str "")) := by
  simp [buildResult, jget, jlookup]

/-- A built result's `llm_prompt` is the model reply's value, or the empty
string when the key is absent. -/
theorem jget_buildResult_llm (ctx : NoteContext)
    (kvs : List (String × Json)) :
    jget (buildResult ctx kvs) "llm_prompt" =
      some ((jlookup kvs "llm_prompt").getD (Json.str "")) := by
  simp [buildResult, jget, jlookup]

/-- The summarizer's `cm_obj_usage` entry is the dumped usage list. -/
theorem jget_summarize_usages (ctx : NoteContext) :
    jget (summarize_context ctx) "cm_obj_usage" =
      some (Json.arr (ctx.cm_obj_usage.map model_dump)) := by
  simp [summarize_context, jget, jlookup]

/-- When every model call in the batch succeeds with a JSON object, the
handler body returns one built result per item, in order, with one
outbound call per item. -/
theorem assess_note_context_all_ok (invoke : LlmInput → Except String Json)
    (f : NoteContext → List (String × Json)) :
    ∀ ctxs : List NoteContext,
      (∀ c ∈ ctxs, llm_assess invoke c = Except.ok (Json.obj (f c))) →
      assess_note_context invoke ctxs =
        (Except.ok (ctxs.map (fun c => buildResult c (f c))), ctxs.length) := by
  intro ctxs
  induction ctxs with
  | nil => intro _; rfl
  | cons c rest ih =>
    intro h
    have hc := h c (List.mem_cons_self _ _)
    have ih' := ih (fun c' hc' => h c' (List.mem_cons_of_mem _ hc'))
    simp [assess_note_context, hc, ih', Except.map]

/-- C1: For a batch of valid items where every model call before position
k succeeds with a JSON object and the call for item k raises, the handler
aborts with the single 502 `HTTPException` (`"LLM call failed: ..."`): no
result list is returned, the results already built for items 1..k-1 are
discarded, and exactly k outbound calls are made, so items k+1..N are
never processed. -/
theorem assess_aborts_on_model_failure
    (invoke : LlmInput → Except String Json) (pre post : List NoteContext)
    (c : NoteContext) (err : String)
    (hpre : ∀ c' ∈ pre, ∃ kvs, llm_assess invoke c' = Except.ok (Json.obj kvs))
    (hc : llm_assess invoke c = Except.error err) :
    assess_note_context invoke (pre ++ c :: post) =
      (Except.error (HandlerExc.httpExc 502 ("LLM call failed: " ++ err)),
        pre.length + 1) ∧
    ∀ rs, (assess_note_context invoke (pre ++ c :: post)).1 ≠
      Except.ok rs := by
  have h1 : assess_note_context invoke (pre ++ c :: post) =
      (Except.error (HandlerExc.httpExc 502 ("LLM call failed: " ++ err)),
        pre.length + 1) := by
    induction pre with
    | nil => simp [assess_note_context, hc]
    | cons a pre ih =>
      obtain ⟨kvs, ha⟩ := hpre a (List.mem_cons_self _ _)
      have ih' := ih (fun c' hm => hpre c' (List.mem_cons_of_mem _ hm))
      simp [assess_note_context, ha, ih', Except.map]
  refine ⟨h1, fun rs hcontra => ?_⟩
  simp [h1] at hcontra

/-- C1 witness: with a stand-in model that succeeds on the unit named `"A"`
(as a JSON object) and raises on everything else, the batch
`[ctxA, ctxB, ctxC]` aborts at the second item with the 502 exception
after exactly two calls. -/
theorem assess_aborts_on_model_failure_witness :
    assess_note_context selInvoke [ctxA, ctxB, ctxC] =
      (Except.error
        (HandlerExc.httpExc 502 ("LLM call failed: " ++ "boom")), 2) := by
  have h := assess_aborts_on_model_failure selInvoke [ctxA] [ctxC] ctxB "boom"
    (by
      intro c' hc'
      simp only [List.mem_singleton] at hc'
      subst hc'
      exact ⟨[], rfl⟩)
    rfl
  exact h.1

/-- C2: When every model call in a batch of N valid items succeeds with a
JSON object, the handler returns the array of exactly N built results, in
input order, making one call per item, and every result's `code` field is
the empty string. -/
theorem assess_all_ok_results (invoke : LlmInput → Except String Json)
    (f : NoteContext → List (String × Json)) (ctxs : List NoteContext)
    (h : ∀ c ∈ ctxs, llm_assess invoke c = Except.ok (Json.obj (f c))) :
    assess_note_context invoke ctxs =
      (Except.ok (ctxs.map (fun c => buildResult c (f c))), ctxs.length) ∧
    (ctxs.map (fun c => buildResult c (f c))).length = ctxs.length ∧
    ∀ r ∈ ctxs.map (fun c => buildResult c (f c)),
      jget r "code" = some (Json.str "") := by
  refine ⟨assess_note_context_all_ok invoke f ctxs h, by simp, ?_⟩
  intro r hr
  rcases List.mem_map.mp hr with ⟨c, _, rfl⟩
  exact jget_buildResult_code c (f c)

/-- C2 witness: a two-item batch against an always-succeeding stand-in
yields the two built results in order, two calls, and an empty `code`. -/
theorem assess_all_ok_results_witness :
    assess_note_context okInvoke [ctxA, ctxB] =
      (Except.ok [buildResult ctxA okKvs, buildResult ctxB okKvs], 2) ∧
    jget (buildResult ctxA okKvs) "code" = some (Json.str "") := by
  have h := assess_all_ok_results okInvoke (fun _ => okKvs) [ctxA, ctxB]
    (fun c _ => rfl)
  exact ⟨h.1, h.2.2 (buildResult ctxA okKvs) (by simp)⟩

/-- C3: A `used_fields` / `suggested_fields` list accepted by validation
contains no empty-string entry (and, being a list of strings, no null);
the `no_none` filter is idempotent — applied to an already-filtered
sequence it returns the same sequence — and the spec's worked example,
`used_fields = ["KUNNR", "", null]`, validates to `["KUNNR"]`. -/
theorem validated_fields_no_empty (j : Json) (item : SelectItem)
    (h : validateSelectItem j = V.ok item) :
    ("" ∉ item.used_fields ∧ "" ∉ item.suggested_fields) ∧
    (∀ v : List Json, no_none (Json.arr (v.filter pyTruthy)) =
      V.ok (v.filter pyTruthy)) ∧
    (validateSelectItem exampleUsageJson = V.ok exampleUsageItem ∧
      exampleUsageItem.used_fields = ["KUNNR"]) := by
  refine ⟨?_, ?_, by decide, rfl⟩
  · cases j with
    | obj kvs =>
      rcases validateSelectItem_obj_ok h with ⟨_, _, _, h4, h5, _⟩
      constructor
      · intro hmem
        exact fieldsList_ok_ne_empty h4 "" hmem rfl
      · intro hmem
        exact fieldsList_ok_ne_empty h5 "" hmem rfl
    | null => simp [validateSelectItem] at h
    | bool b => simp [validateSelectItem] at h
    | num n => simp [validateSelectItem] at h
    | str s => simp [validateSelectItem] at h
    | arr items => simp [validateSelectItem] at h
  · intro v
    simp [no_none, pyIterate, filter_pyTruthy_idem]

/-- C3 witness: the spec's worked example, instantiated. -/
theorem validated_fields_no_empty_witness :
    ("" ∉ exampleUsageItem.used_fields ∧
      "" ∉ exampleUsageItem.suggested_fields) ∧
    no_none
        (Json.arr ([Json.str "KUNNR", Json.str "", Json.null].filter
          pyTruthy)) =
      V.ok ([Json.str "KUNNR", Json.str "", Json.null].filter pyTruthy) ∧
    validateSelectItem exampleUsageJson = V.ok exampleUsageItem := by
  have h := validated_fields_no_empty exampleUsageJson exampleUsageItem
    (by decide)
  exact ⟨h.1, h.2.1 _, h.2.2.1⟩

/-- C4 counterexample: `poisonBody` contains (as its first record) a usage
that omits the required `table` field, yet the request is not rejected
with the 422 schema-validation error: pydantic collects the missing-field
error, keeps validating, and the second record's non-iterable
`used_fields` raises `TypeError` inside the `no_none` validator, which
neither pydantic v2 nor FastAPI translates, so the request dies as an
uncaught server error (still before any model call). -/
theorem missing_table_not_always_422 :
    bodyHasUsageMissingRequired poisonBody = true ∧
    handleRequest noInvoke poisonBody =
      (Resp.uncaught "TypeError: argument is not iterable", 0) ∧
    (handleRequest noInvoke poisonBody).1 ≠ Resp.validationError := by
  refine ⟨by decide, by rfl, ?_⟩
  intro hcontra
  rw [show handleRequest noInvoke poisonBody =
      (Resp.uncaught "TypeError: argument is not iterable", 0) from rfl]
    at hcontra
  cases hcontra

/-- C4 (amended): a request body containing a record whose usage omits a
required field is rejected before any outbound model call (the call count
is zero); the rejection is the 422 schema-validation client error
whenever body validation raises no `TypeError` (a non-iterable
`used_fields` / `suggested_fields` value anywhere in the body instead
escapes as an uncaught server error, still with zero model calls). -/
theorem missing_required_zero_calls
    (invoke : LlmInput → Except String Json) (body : Json)
    (h : bodyHasUsageMissingRequired body = true) :
    (handleRequest invoke body).2 = 0 ∧
    (validateBody body ≠ V.typeErr →
      handleRequest invoke body = (Resp.validationError, 0)) := by
  have hnot := validateBody_missing_not_ok h
  cases hv : validateBody body with
  | ok ctxs => exact absurd hv (hnot ctxs)
  | invalid => exact ⟨by simp [handleRequest, hv], fun _ => by
      simp [handleRequest, hv]⟩
  | typeErr => exact ⟨by simp [handleRequest, hv], fun hne => absurd rfl hne⟩

/-- C4 witness: a body whose only flaw is the missing `table` is answered
with the 422 validation error and zero model calls. -/
theorem missing_required_zero_calls_witness :
    (handleRequest noInvoke missingTableBody).2 = 0 ∧
    handleRequest noInvoke missingTableBody = (Resp.validationError, 0) := by
  have h := missing_required_zero_calls noInvoke missingTableBody (by decide)
  exact ⟨h.1, h.2 (by decide)⟩

/-- C5 counterexample: `wrongTypeBody`'s record has a `used_fields` of the
wrong type — a JSON string where a sequence of strings is required — yet
validation accepts the record (the `no_none` before-validator iterates
the string into its one-character substrings, which then pass the
`List[str]` check), the request is not failed, and the handler proceeds
to answer 200 after one model call. -/
theorem wrong_type_record_accepted :
    validateBody wrongTypeBody = V.ok [wrongTypeAccepted] ∧
    handleRequest okInvoke wrongTypeBody =
      (Resp.ok (Json.arr [buildResult wrongTypeAccepted okKvs]), 1) ∧
    (handleRequest okInvoke wrongTypeBody).1 ≠ Resp.validationError := by
  refine ⟨by decide, by rfl, ?_⟩
  intro hcontra
  rw [show handleRequest okInvoke wrongTypeBody =
      (Resp.ok (Json.arr [buildResult wrongTypeAccepted okKvs]), 1) from rfl]
    at hcontra
  cases hcontra

/-- C5 (amended): a record whose usage omits a required field is never
accepted — a body containing one never validates successfully, and it
fails with the 422 client error whenever validation raises no
`TypeError`. A wrong-typed `used_fields` / `suggested_fields` value is
not reliably rejected, however: an iterable wrong-typed value (a JSON
string or object) is transformed by the `no_none` before-validator and
can be accepted, and a non-iterable one raises an uncaught `TypeError`
surfaced as a server error rather than a client error. -/
theorem missing_required_never_accepted (body : Json)
    (h : bodyHasUsageMissingRequired body = true) :
    (∀ ctxs : List NoteContext, validateBody body ≠ V.ok ctxs) ∧
    (validateBody body ≠ V.typeErr → validateBody body = V.invalid) := by
  have hnot := validateBody_missing_not_ok h
  refine ⟨hnot, fun hne => ?_⟩
  cases hv : validateBody body with
  | ok ctxs => exact absurd hv (hnot ctxs)
  | invalid => rfl
  | typeErr => exact absurd hv hne

/-- C5 witness: the missing-`table` body is a collected validation
failure. -/
theorem missing_required_never_accepted_witness :
    validateBody missingTableBody = V.invalid :=
  (missing_required_never_accepted missingTableBody (by decide)).2 (by decide)

/-- C6: the summarizer is a pure function — equal inputs give equal
outputs — and its `cm_obj_usage` entry is a list with exactly one dumped
mapping per usage of the input. -/
theorem summarize_deterministic (a b : NoteContext) (h : a = b) :
    summarize_context a = summarize_context b ∧
    jget (summarize_context a) "cm_obj_usage" =
      some (Json.arr (a.cm_obj_usage.map model_dump)) ∧
    (a.cm_obj_usage.map model_dump).length = a.cm_obj_usage.length := by
  subst h
  exact ⟨rfl, jget_summarize_usages a, by simp⟩

/-- C6 witness: the summarizer on a one-usage context. -/
theorem summarize_deterministic_witness :
    summarize_context ctxB = summarize_context ctxB ∧
    jget (summarize_context ctxB) "cm_obj_usage" =
      some (Json.arr (ctxB.cm_obj_usage.map model_dump)) ∧
    (ctxB.cm_obj_usage.map model_dump).length =
      ctxB.cm_obj_usage.length :=
  summarize_deterministic ctxB ctxB rfl

/-- C7: a record validated successfully with `cm_obj_usage` absent gets
the default empty usage list, its summary's `cm_obj_usage` is the empty
list, and the item is processed normally: a one-item batch performs
exactly one outbound model call, whatever the model does. -/
theorem empty_usages_processed (kvs : List (String × Json))
    (ctx : NoteContext)
    (hv : validateNoteContext (Json.obj kvs) = V.ok ctx)
    (hno : jlookup kvs "cm_obj_usage" = none) :
    ctx.cm_obj_usage = [] ∧
    jget (summarize_context ctx) "cm_obj_usage" = some (Json.arr []) ∧
    ∀ invoke : LlmInput → Except String Json,
      (assess_note_context invoke [ctx]).2 = 1 := by
  rcases validateNoteContext_obj_ok hv with ⟨_, _, _, _, hus⟩
  simp only [usagesField, hno] at hus
  have hempty : ctx.cm_obj_usage = [] := by
    injection hus with h'
    exact h'.symm
  refine ⟨hempty, ?_, ?_⟩
  · rw [jget_summarize_usages, hempty]
    simp
  · intro invoke
    cases hcall : llm_assess invoke ctx with
    | error e => simp [assess_note_context, hcall]
    | ok r => cases r <;> simp [assess_note_context, hcall]

/-- C7 witness: a record with only `pgm_name` and no `cm_obj_usage` key
validates to a context with no usages, summarizes to an empty usage list,
and costs one model call. -/
theorem empty_usages_processed_witness :
    ctxA.cm_obj_usage = [] ∧
    jget (summarize_context ctxA) "cm_obj_usage" = some (Json.arr []) ∧
    (assess_note_context okInvoke [ctxA]).2 = 1 := by
  have h := empty_usages_processed [("pgm_name", Json.str "A")] ctxA
    (by decide) rfl
  exact ⟨h.1, h.2.1, h.2.2 okInvoke⟩

/-- C8: when every model call in the batch succeeds with a JSON object,
the result at position i is built from the item at position i: it echoes
the item's `pgm_name`, `inc_name`, `type` and `name`, and its
`assessment` / `llm_prompt` are the model reply's values for those keys,
the empty string when a key is absent from the reply. -/
theorem result_echoes_item (invoke : LlmInput → Except String Json)
    (f : NoteContext → List (String × Json)) (ctxs : List NoteContext)
    (h : ∀ c ∈ ctxs, llm_assess invoke c = Except.ok (Json.obj (f c)))
    (i : Nat) (c : NoteContext) (hc : ctxs[i]? = some c) :
    (assess_note_context invoke ctxs).1 =
      Except.ok (ctxs.map (fun c => buildResult c (f c))) ∧
    (ctxs.map (fun c => buildResult c (f c)))[i]? =
      some (buildResult c (f c)) ∧
    jget (buildResult c (f c)) "pgm_name" = some (jsonOfOptStr c.pgm_name) ∧
    jget (buildResult c (f c)) "inc_name" = some (jsonOfOptStr c.inc_name) ∧
    jget (buildResult c (f c)) "type" = some (jsonOfOptStr c.type) ∧
    jget (buildResult c (f c)) "name" = some (jsonOfOptStr c.name) ∧
    jget (buildResult c (f c)) "assessment" =
      some ((jlookup (f c) "assessment").getD (Json.str "")) ∧
    jget (buildResult c (f c)) "llm_prompt" =
      some ((jlookup (f c) "llm_prompt").getD (Json.str "")) ∧
    (jlookup (f c) "assessment" = none →
      jget (buildResult c (f c)) "assessment" = some (Json.str "")) ∧
    (jlookup (f c) "llm_prompt" = none →
      jget (buildResult c (f c)) "llm_prompt" = some (Json.str "")) := by
  refine ⟨by rw [assess_note_context_all_ok invoke f ctxs h], ?_,
    jget_buildResult_pgm c (f c), jget_buildResult_inc c (f c),
    jget_buildResult_type c (f c), jget_buildResult_name c (f c),
    jget_buildResult_assessment c (f c), jget_buildResult_llm c (f c),
    ?_, ?_⟩
  · rw [List.getElem?_map, hc]
    rfl
  · intro hn
    rw [jget_buildResult_assessment, hn]
    rfl
  · intro hn
    rw [jget_buildResult_llm, hn]
    rfl

/-- C8 witness: a model reply that is an empty JSON object yields a result
echoing the item's metadata with empty `assessment`. -/
theorem result_echoes_item_witness :
    (assess_note_context emptyObjInvoke [ctxB]).1 =
      Except.ok [buildResult ctxB []] ∧
    jget (buildResult ctxB []) "pgm_name" = some (Json.str "B") ∧
    jget (buildResult ctxB []) "assessment" = some (Json.str "") := by
  have h := result_echoes_item emptyObjInvoke (fun _ => []) [ctxB]
    (fun c _ => rfl) 0 ctxB rfl
  exact ⟨h.1, h.2.2.1, h.2.2.2.2.2.2.2.2.1 rfl⟩

/-- C9: `GET /health` always answers with the object
`{"ok": true, "model": <configured model>}`, performing zero outbound
model calls, and — the service holding no cross-request state — its
answer is the same whatever requests were processed before. -/
theorem health_constant (invoke : LlmInput → Except String Json)
    (model : String) (prior : List Request) :
    dispatch invoke model Request.getHealth =
      (Resp.ok (Json.obj [("ok", Json.bool true), ("model", Json.str model)]),
        0) ∧
    runRequests invoke model (prior ++ [Request.getHealth]) =
      runRequests invoke model prior ++ [(Resp.ok (health model), 0)] :=
  ⟨rfl, by simp [runRequests, dispatch]⟩

/-- C10: when the model reply for item k parses as JSON but is not a JSON
object (an array, string, number, boolean or null), the
`llm_result.get(...)` extraction — which sits outside the `try` block
guarding the model call — raises `AttributeError`, so the handler fails
with that untranslated exception and not with the 502 `HTTPException`. -/
theorem nonobject_reply_uncaught (invoke : LlmInput → Except String Json)
    (pre post : List NoteContext) (c : NoteContext) (r : Json)
    (hpre : ∀ c' ∈ pre, ∃ kvs, llm_assess invoke c' = Except.ok (Json.obj kvs))
    (hc : llm_assess invoke c = Except.ok r)
    (hr : ∀ kvs, r ≠ Json.obj kvs) :
    assess_note_context invoke (pre ++ c :: post) =
      (Except.error (HandlerExc.pyExc "AttributeError: no attribute get"),
        pre.length + 1) ∧
    ∀ d, (assess_note_context invoke (pre ++ c :: post)).1 ≠
      Except.error (HandlerExc.httpExc 502 d) := by
  have h1 : assess_note_context invoke (pre ++ c :: post) =
      (Except.error (HandlerExc.pyExc "AttributeError: no attribute get"),
        pre.length + 1) := by
    induction pre with
    | nil =>
      cases r with
      | obj kvs => exact absurd rfl (hr kvs)
      | null => simp [assess_note_context, hc]
      | bool b => simp [assess_note_context, hc]
      | num n => simp [assess_note_context, hc]
      | str s => simp [assess_note_context, hc]
      | arr items => simp [assess_note_context, hc]
    | cons a pre ih =>
      obtain ⟨kvs, ha⟩ := hpre a (List.mem_cons_self _ _)
      have ih' := ih (fun c' hm => hpre c' (List.mem_cons_of_mem _ hm))
      simp [assess_note_context, ha, ih', Except.map]
  refine ⟨h1, fun d hcontra => ?_⟩
  simp [h1] at hcontra

/-- C10 witness: a stand-in replying with a JSON array on the second item
makes the two-item batch die with the untranslated `AttributeError`. -/
theorem nonobject_reply_uncaught_witness :
    assess_note_context arrInvoke [ctxA, ctxB] =
      (Except.error (HandlerExc.pyExc "AttributeError: no attribute get"),
        2) := by
  have h := nonobject_reply_uncaught arrInvoke [ctxA] [] ctxB
    (Json.arr [Json.str "x"])
    (by
      intro c' hc'
      simp only [List.mem_singleton] at hc'
      subst hc'
      exact ⟨[], rfl⟩)
    rfl
    (fun kvs hk => Json.noConfusion hk)
  exact h.1
